import Mathlib

/-!
Shallow embedding of the ResampleScope analysis core (`rscope_shim.c`).

Rasters are flat row-major byte buffers (`List ℕ`); C `double` arithmetic is
embedded as real arithmetic (`ℝ`), matching the real-arithmetic reading of the
specification.  Pixel reads go through `List.getElem?`, so every function that
reads the caller-supplied buffer is `Option`-valued: `none` models an
out-of-bounds read, which in the C source is undefined behaviour.
-/

/-- `DOTIMG_SRC_WIDTH` from `rscope_shim.c`. -/
abbrev DOTIMG_SRC_WIDTH : ℕ := 557

/-- `DOTIMG_HPIXELSPAN` from `rscope_shim.c`. -/
abbrev DOTIMG_HPIXELSPAN : ℕ := 25

/-- `DOTIMG_NUMSTRIPS = DOTIMG_HPIXELSPAN`. -/
abbrev DOTIMG_NUMSTRIPS : ℕ := DOTIMG_HPIXELSPAN

/-- `DOTIMG_HCENTER = (DOTIMG_HPIXELSPAN-1)/2`. -/
abbrev DOTIMG_HCENTER : ℕ := (DOTIMG_HPIXELSPAN - 1) / 2

/-- `DOTIMG_STRIPHEIGHT` from `rscope_shim.c`. -/
abbrev DOTIMG_STRIPHEIGHT : ℕ := 11

/-- `DOTIMG_VCENTER = (DOTIMG_STRIPHEIGHT-1)/2`. -/
abbrev DOTIMG_VCENTER : ℕ := (DOTIMG_STRIPHEIGHT - 1) / 2

/-- `DOTIMG_SRC_HEIGHT = DOTIMG_NUMSTRIPS*DOTIMG_STRIPHEIGHT`. -/
abbrev DOTIMG_SRC_HEIGHT : ℕ := DOTIMG_NUMSTRIPS * DOTIMG_STRIPHEIGHT

/-- `LINEIMG_SRC_WIDTH` from `rscope_shim.c`. -/
abbrev LINEIMG_SRC_WIDTH : ℕ := 15

/-- `LINEIMG_SRC_HEIGHT` from `rscope_shim.c`. -/
abbrev LINEIMG_SRC_HEIGHT : ℕ := 15

/-- Background intensity `DARK`. -/
abbrev DARK : ℕ := 50

/-- Dot/line intensity `BRIGHT`. -/
abbrev BRIGHT : ℕ := 250

/-- One pixel of the dot test pattern, as written by the loop body of
`rs_generate_dot_pattern`: the buffer is `memset` to `DARK` and the loop
overwrites the pixel with `BRIGHT` exactly when the three conditions hold.
`Int.tmod` is C's `%` on `int` (remainder carrying the dividend's sign). -/
def dotPatternPixel (i j : ℕ) : ℕ :=
  if j % DOTIMG_STRIPHEIGHT = DOTIMG_VCENTER ∧ DOTIMG_HCENTER ≤ i ∧
      i < DOTIMG_SRC_WIDTH - DOTIMG_HCENTER ∧
      Int.tmod ((i : ℤ) - (j / DOTIMG_STRIPHEIGHT : ℕ)) DOTIMG_HPIXELSPAN = DOTIMG_HCENTER
  then BRIGHT else DARK

/-- `rs_generate_dot_pattern`: the row-major `DOTIMG_SRC_WIDTH × DOTIMG_SRC_HEIGHT`
grayscale buffer produced by the nested `j`/`i` loops. -/
def rs_generate_dot_pattern : List ℕ :=
  (List.range DOTIMG_SRC_HEIGHT).flatMap fun j =>
    (List.range DOTIMG_SRC_WIDTH).map fun i => dotPatternPixel i j

/-- Modelled from the spec (design note §9 of the spec): the same pixel rule with
the sign-of-dividend remainder replaced by the mathematical always-non-negative
modulus (`Int.emod`, non-negative for the positive modulus 25). -/
def dotPatternPixelEmod (i j : ℕ) : ℕ :=
  if j % DOTIMG_STRIPHEIGHT = DOTIMG_VCENTER ∧ DOTIMG_HCENTER ≤ i ∧
      i < DOTIMG_SRC_WIDTH - DOTIMG_HCENTER ∧
      Int.emod ((i : ℤ) - (j / DOTIMG_STRIPHEIGHT : ℕ)) DOTIMG_HPIXELSPAN = DOTIMG_HCENTER
  then BRIGHT else DARK

/-- The dot pattern generated with the mathematical modulus instead of C's. -/
def rs_generate_dot_pattern_emod : List ℕ :=
  (List.range DOTIMG_SRC_HEIGHT).flatMap fun j =>
    (List.range DOTIMG_SRC_WIDTH).map fun i => dotPatternPixelEmod i j

/-- `c_srgb_to_linear` from `rscope_shim.c`: the standard sRGB transfer function. -/
noncomputable def c_srgb_to_linear (v_srgb : ℝ) : ℝ :=
  if v_srgb ≤ 0.04045 then v_srgb / 12.92
  else ((v_srgb + 0.055) / 1.055) ^ (2.4 : ℝ)

/-- The value conversion performed by `read_pixel` on the raw byte value:
identity when `srgb` is off, otherwise sRGB-to-linear followed by the affine
remap anchored at the linear values of `50/255` and `250/255`. -/
noncomputable def convertPixel (srgb : Bool) (raw : ℝ) : ℝ :=
  if srgb then
    (c_srgb_to_linear (raw / 255) - c_srgb_to_linear (50 / 255)) *
      ((250 - 50) / (c_srgb_to_linear (250 / 255) - c_srgb_to_linear (50 / 255))) + 50
  else raw

/-- `read_pixel` from `rscope_shim.c`: reads the byte at `buf[y*stride+x]`
and converts it.  `none` models the out-of-bounds read. -/
noncomputable def read_pixel (buf : List ℕ) (stride x y : ℕ) (srgb : Bool) : Option ℝ :=
  (buf[y * stride + x]?).map fun b : ℕ => convertPixel srgb (b : ℝ)

/-- The sample row chosen by `rs_analyze_line` for destination column `i`:
when `h >= 3`, `scanline + (i%3) - 1` clamped by the two `if`s of the C code;
otherwise `scanline` (where `scanline = h/2`). -/
def lineSampleY (h i : ℕ) : ℕ :=
  if 3 ≤ h then
    let y : ℤ := (h / 2 : ℕ) + (i % 3 : ℕ) - 1
    let y := if y < 0 then 0 else y
    let y := if (h : ℤ) ≤ y then (h : ℤ) - 1 else y
    y.toNat
  else h / 2

/-- The per-column loop of `rs_analyze_line` over the remaining destination
columns: produces the `(offset, weight)` samples in column order together with
the running total `tot` of pre-rescale weights. -/
noncomputable def lineLoop (buf : List ℕ) (w h : ℕ) (srgb : Bool) (scale_factor : ℝ) :
    List ℕ → Option (List (ℝ × ℝ) × ℝ)
  | [] => some ([], 0)
  | i :: rest =>
    match read_pixel buf w i (lineSampleY h i) srgb with
    | none => none
    | some v =>
      match lineLoop buf w h srgb scale_factor rest with
      | none => none
      | some (samples, tot) =>
        let weight := (v - 50) / 200
        let offset := 0.5 + (i : ℝ) - (w : ℝ) / 2
        some ((if scale_factor < 1 then (offset, weight / scale_factor)
               else (offset / scale_factor, weight)) :: samples,
              weight + tot)

/-- `rs_analyze_line` from `rscope_shim.c`: returns
`(scale_factor, samples, area)` where `area = tot / scale_factor`. -/
noncomputable def rs_analyze_line (buf : List ℕ) (w h : ℕ) (srgb : Bool) :
    Option (ℝ × List (ℝ × ℝ) × ℝ) :=
  let scale_factor : ℝ := (w : ℝ) / (LINEIMG_SRC_WIDTH : ℝ)
  (lineLoop buf w h srgb scale_factor (List.range w)).map fun r =>
    (scale_factor, r.1, r.2 / scale_factor)

/-- The source dot-center columns scanned by the inner `k` loop of
`rs_analyze_dot`: `k, k+25, k+50, …` strictly below
`DOTIMG_SRC_WIDTH - DOTIMG_HCENTER`. -/
def dotCenters (k : ℕ) : List ℕ :=
  if h : k < DOTIMG_SRC_WIDTH - DOTIMG_HCENTER then
    k :: dotCenters (k + DOTIMG_HPIXELSPAN)
  else []
termination_by DOTIMG_SRC_WIDTH - DOTIMG_HCENTER - k
decreasing_by simp only [DOTIMG_SRC_WIDTH, DOTIMG_HCENTER, DOTIMG_HPIXELSPAN] at *; omega

/-- The destination coordinate `zp` of source dot center `k`:
`scale_factor*(k + 0.5 - SRC_WIDTH/2) + w/2 - 0.5`. -/
noncomputable def zeroPoint (scale_factor : ℝ) (w k : ℕ) : ℝ :=
  scale_factor * ((k : ℝ) + 0.5 - (DOTIMG_SRC_WIDTH : ℝ) / 2) + (w : ℝ) / 2 - 0.5

/-- One step of the nearest-zero-point scan of `rs_analyze_dot`: keep the
signed offset `dstpos - zp` when its magnitude strictly beats the magnitude
kept so far. -/
noncomputable def offsetStep (scale_factor : ℝ) (w dstpos : ℕ) (offset : ℝ) (k : ℕ) : ℝ :=
  let tmp_offset := (dstpos : ℝ) - zeroPoint scale_factor w k
  if |tmp_offset| < |offset| then tmp_offset else offset

/-- The nearest-zero-point scan of `rs_analyze_dot`: starting from the sentinel
`10000.0`, scan all candidate dot centers of the strip. -/
noncomputable def bestOffset (scale_factor : ℝ) (w dstpos strip : ℕ) : ℝ :=
  (dotCenters (DOTIMG_HCENTER + strip)).foldl (offsetStep scale_factor w dstpos) 10000

/-- The vertical summation loop of `rs_analyze_dot` over the given row indices
of a strip: accumulates `(pixel value - 50)` at column `dstpos`. -/
noncomputable def stripTot (buf : List ℕ) (w : ℕ) (srgb : Bool) (strip dstpos : ℕ) :
    List ℕ → Option ℝ
  | [] => some 0
  | row :: rows =>
    match read_pixel buf w dstpos (DOTIMG_STRIPHEIGHT * strip + row) srgb with
    | none => none
    | some v =>
      match stripTot buf w srgb strip dstpos rows with
      | none => none
      | some t => some (v - 50 + t)

/-- One `(strip, dstpos)` iteration of `rs_analyze_dot`:
`some none` means the column was skipped (too far from every dot center),
`some (some s)` that sample `s` was emitted, `none` an out-of-bounds read. -/
noncomputable def dotSample (buf : List ℕ) (w : ℕ) (srgb : Bool) (scale_factor : ℝ)
    (strip dstpos : ℕ) : Option (Option (ℝ × ℝ)) :=
  let offset := bestOffset scale_factor w dstpos strip
  if |offset| > scale_factor * (DOTIMG_HCENTER : ℝ) then some none
  else
    (stripTot buf w srgb strip dstpos (List.range DOTIMG_STRIPHEIGHT)).map fun tot =>
      let weight := tot / 200
      some (if scale_factor < 1 then (offset, weight / scale_factor)
            else (offset / scale_factor, weight))

/-- The `(strip, dstpos)` iteration space of `rs_analyze_dot`, in strip-major,
then destination-column order. -/
def dotPairs (w : ℕ) : List (ℕ × ℕ) :=
  (List.range DOTIMG_NUMSTRIPS).flatMap fun strip =>
    (List.range w).map fun dstpos => (strip, dstpos)

/-- The accumulation of `rs_analyze_dot` over the iteration space: emitted
samples are appended in iteration order, skipped columns contribute nothing. -/
noncomputable def dotLoop (buf : List ℕ) (w : ℕ) (srgb : Bool) (scale_factor : ℝ) :
    List (ℕ × ℕ) → Option (List (ℝ × ℝ))
  | [] => some []
  | p :: ps =>
    match dotSample buf w srgb scale_factor p.1 p.2 with
    | none => none
    | some none => dotLoop buf w srgb scale_factor ps
    | some (some s) => (dotLoop buf w srgb scale_factor ps).map fun rest => s :: rest

/-- `rs_analyze_dot` from `rscope_shim.c`: returns `(scale_factor, samples)`.
The height `h` is unused, exactly as in the C source (`(void)h`). -/
noncomputable def rs_analyze_dot (buf : List ℕ) (w h : ℕ) (srgb : Bool) :
    Option (ℝ × List (ℝ × ℝ)) :=
  let scale_factor : ℝ := (w : ℝ) / (DOTIMG_SRC_WIDTH : ℝ)
  (dotLoop buf w srgb scale_factor (dotPairs w)).map fun samples => (scale_factor, samples)

/-- Pre-rescale weight of the line analyzer at column `i`, read from the buffer
(total function; meaningful whenever the read is in bounds). -/
noncomputable def lineWeightAt (buf : List ℕ) (w h : ℕ) (srgb : Bool) (i : ℕ) : ℝ :=
  (convertPixel srgb (buf.getD (lineSampleY h i * w + i) 0 : ℕ) - 50) / 200

/-- Pre-rescale offset of the line analyzer at column `i`: `0.5 + i - w/2`. -/
noncomputable def lineOffsetAt (w i : ℕ) : ℝ :=
  0.5 + (i : ℝ) - (w : ℝ) / 2

/-- Pre-rescale weight of the dot analyzer at `(strip, dstpos)`: the sum of
`(pixel value - 50)` over the strip's rows, divided by 200 (total function). -/
noncomputable def dotWeightAt (buf : List ℕ) (w : ℕ) (srgb : Bool) (strip dstpos : ℕ) : ℝ :=
  ((List.range DOTIMG_STRIPHEIGHT).map fun row =>
    convertPixel srgb (buf.getD ((DOTIMG_STRIPHEIGHT * strip + row) * w + dstpos) 0 : ℕ) - 50).sum
    / 200

/-! ### Basic facts about pixel reads -/

theorem abs_ite (a : ℝ) : |a| = if 0 ≤ a then a else -a := by
  split
  · exact abs_of_nonneg ‹_›
  · exact abs_of_neg (lt_of_not_le ‹_›)

theorem read_pixel_eq_map (buf : List ℕ) (stride x y : ℕ) (srgb : Bool) :
    read_pixel buf stride x y srgb =
      (buf[y * stride + x]?).map fun b : ℕ => convertPixel srgb (b : ℝ) := rfl

theorem read_pixel_of_lt (buf : List ℕ) (stride x y : ℕ) (srgb : Bool)
    (h : y * stride + x < buf.length) :
    read_pixel buf stride x y srgb =
      some (convertPixel srgb (buf.getD (y * stride + x) 0 : ℕ)) := by
  rw [read_pixel_eq_map, List.getElem?_eq_getElem h, List.getD_eq_getElem?_getD,
    List.getElem?_eq_getElem h]
  rfl

theorem read_pixel_some (buf : List ℕ) (stride x y : ℕ) (srgb : Bool) (v : ℝ)
    (h : read_pixel buf stride x y srgb = some v) :
    v = convertPixel srgb (buf.getD (y * stride + x) 0 : ℕ) := by
  rw [read_pixel_eq_map] at h
  cases hb : buf[y * stride + x]? with
  | none => rw [hb] at h; exact Option.noConfusion h
  | some b =>
    rw [hb] at h
    simp only [Option.map_some', Option.some.injEq] at h
    rw [List.getD_eq_getElem?_getD, hb, ← h]
    rfl

/-! ### Characterization of the line-analyzer loop -/

theorem lineLoop_some (buf : List ℕ) (w h : ℕ) (srgb : Bool) (sf : ℝ) :
    ∀ (l : List ℕ) (samples : List (ℝ × ℝ)) (tot : ℝ),
      lineLoop buf w h srgb sf l = some (samples, tot) →
      samples = l.map (fun i =>
          if sf < 1 then (lineOffsetAt w i, lineWeightAt buf w h srgb i / sf)
          else (lineOffsetAt w i / sf, lineWeightAt buf w h srgb i)) ∧
      tot = (l.map (lineWeightAt buf w h srgb)).sum := by
  intro l
  induction l with
  | nil =>
    intro samples tot hl
    simp only [lineLoop, Option.some.injEq, Prod.mk.injEq] at hl
    simp [← hl.1, ← hl.2]
  | cons i rest ih =>
    intro samples tot hl
    rw [lineLoop] at hl
    cases hr : read_pixel buf w i (lineSampleY h i) srgb with
    | none => rw [hr] at hl; exact Option.noConfusion hl
    | some v =>
      rw [hr] at hl
      cases hrec : lineLoop buf w h srgb sf rest with
      | none => rw [hrec] at hl; exact Option.noConfusion hl
      | some r =>
        obtain ⟨samples0, tot0⟩ := r
        rw [hrec] at hl
        simp only [Option.some.injEq, Prod.mk.injEq] at hl
        obtain ⟨hs, ht⟩ := hl
        obtain ⟨ihs, iht⟩ := ih samples0 tot0 hrec
        have hv : v = convertPixel srgb (buf.getD (lineSampleY h i * w + i) 0 : ℕ) :=
          read_pixel_some _ _ _ _ _ _ hr
        constructor
        · rw [← hs, ihs]
          simp only [List.map_cons, lineWeightAt, lineOffsetAt, hv]
        · rw [← ht, iht]
          simp only [List.map_cons, List.sum_cons, lineWeightAt, hv]

theorem lineLoop_isSome (buf : List ℕ) (w h : ℕ) (srgb : Bool) (sf : ℝ) :
    ∀ l : List ℕ, (∀ i ∈ l, lineSampleY h i * w + i < buf.length) →
      (lineLoop buf w h srgb sf l).isSome := by
  intro l
  induction l with
  | nil => intro _; rw [lineLoop]; rfl
  | cons i rest ih =>
    intro hb
    rw [lineLoop, read_pixel_of_lt buf w i (lineSampleY h i) srgb
      (hb i (List.mem_cons_self i rest))]
    have hrec := ih fun j hj => hb j (List.mem_cons_of_mem i hj)
    cases hrec2 : lineLoop buf w h srgb sf rest with
    | none => rw [hrec2] at hrec; exact Bool.noConfusion hrec
    | some r => obtain ⟨samples0, tot0⟩ := r; rfl

theorem rs_analyze_line_some (buf : List ℕ) (w h : ℕ) (srgb : Bool)
    (sf area : ℝ) (samples : List (ℝ × ℝ))
    (hl : rs_analyze_line buf w h srgb = some (sf, samples, area)) :
    sf = (w : ℝ) / (LINEIMG_SRC_WIDTH : ℝ) ∧
    samples = (List.range w).map (fun i =>
        if sf < 1 then (lineOffsetAt w i, lineWeightAt buf w h srgb i / sf)
        else (lineOffsetAt w i / sf, lineWeightAt buf w h srgb i)) ∧
    area = ((List.range w).map (lineWeightAt buf w h srgb)).sum / sf := by
  rw [rs_analyze_line] at hl
  cases hloop : lineLoop buf w h srgb ((w : ℝ) / (LINEIMG_SRC_WIDTH : ℝ)) (List.range w) with
  | none => rw [hloop] at hl; exact Option.noConfusion hl
  | some r =>
    obtain ⟨samples0, tot0⟩ := r
    rw [hloop] at hl
    simp only [Option.map_some', Option.some.injEq, Prod.mk.injEq] at hl
    obtain ⟨hsf, hs, ha⟩ := hl
    obtain ⟨ihs, iht⟩ := lineLoop_some buf w h srgb _ _ _ _ hloop
    subst hsf
    refine ⟨rfl, ?_, ?_⟩
    · rw [← hs, ihs]
    · rw [← ha, iht]

/-! ### Characterization of the dot-analyzer loops -/

theorem stripTot_some (buf : List ℕ) (w : ℕ) (srgb : Bool) (strip dstpos : ℕ) :
    ∀ (rows : List ℕ) (t : ℝ), stripTot buf w srgb strip dstpos rows = some t →
      t = (rows.map fun row =>
        convertPixel srgb
          (buf.getD ((DOTIMG_STRIPHEIGHT * strip + row) * w + dstpos) 0 : ℕ) - 50).sum := by
  intro rows
  induction rows with
  | nil =>
    intro t ht
    simp only [stripTot, Option.some.injEq] at ht
    simp [← ht]
  | cons row rest ih =>
    intro t ht
    rw [stripTot] at ht
    cases hr : read_pixel buf w dstpos (DOTIMG_STRIPHEIGHT * strip + row) srgb with
    | none => rw [hr] at ht; exact Option.noConfusion ht
    | some v =>
      rw [hr] at ht
      cases hrec : stripTot buf w srgb strip dstpos rest with
      | none => rw [hrec] at ht; exact Option.noConfusion ht
      | some t0 =>
        rw [hrec] at ht
        simp only [Option.some.injEq] at ht
        have hv := read_pixel_some _ _ _ _ _ _ hr
        rw [← ht, ih t0 hrec, hv, List.map_cons, List.sum_cons]

theorem stripTot_isSome (buf : List ℕ) (w : ℕ) (srgb : Bool) (strip dstpos : ℕ) :
    ∀ rows : List ℕ,
      (∀ row ∈ rows, (DOTIMG_STRIPHEIGHT * strip + row) * w + dstpos < buf.length) →
      (stripTot buf w srgb strip dstpos rows).isSome := by
  intro rows
  induction rows with
  | nil => intro _; rw [stripTot]; rfl
  | cons row rest ih =>
    intro hb
    rw [stripTot, read_pixel_of_lt buf w dstpos (DOTIMG_STRIPHEIGHT * strip + row) srgb
      (hb row (List.mem_cons_self row rest))]
    have hrec := ih fun r hr => hb r (List.mem_cons_of_mem row hr)
    cases hrec2 : stripTot buf w srgb strip dstpos rest with
    | none => rw [hrec2] at hrec; exact Bool.noConfusion hrec
    | some t0 => rfl

theorem dotSample_skip_iff (buf : List ℕ) (w : ℕ) (srgb : Bool) (sf : ℝ)
    (strip dstpos : ℕ) :
    dotSample buf w srgb sf strip dstpos = some none ↔
      |bestOffset sf w dstpos strip| > sf * (DOTIMG_HCENTER : ℝ) := by
  rw [dotSample]
  split
  · exact iff_of_true rfl ‹_›
  · rename_i hskip
    apply iff_of_false _ hskip
    intro hmap
    cases hst : stripTot buf w srgb strip dstpos (List.range DOTIMG_STRIPHEIGHT) with
    | none => rw [hst] at hmap; exact Option.noConfusion hmap
    | some t =>
      rw [hst] at hmap
      simp only [Option.map_some', Option.some.injEq] at hmap
      exact Option.noConfusion hmap

theorem dotSample_emit (buf : List ℕ) (w : ℕ) (srgb : Bool) (sf : ℝ)
    (strip dstpos : ℕ) (s : ℝ × ℝ)
    (hemit : dotSample buf w srgb sf strip dstpos = some (some s)) :
    ¬ |bestOffset sf w dstpos strip| > sf * (DOTIMG_HCENTER : ℝ) ∧
    s = (if sf < 1 then
          (bestOffset sf w dstpos strip, dotWeightAt buf w srgb strip dstpos / sf)
         else
          (bestOffset sf w dstpos strip / sf, dotWeightAt buf w srgb strip dstpos)) := by
  rw [dotSample] at hemit
  split at hemit
  · simp only [Option.some.injEq] at hemit
    exact Option.noConfusion hemit
  · rename_i hskip
    refine ⟨hskip, ?_⟩
    cases hst : stripTot buf w srgb strip dstpos (List.range DOTIMG_STRIPHEIGHT) with
    | none => rw [hst] at hemit; exact Option.noConfusion hemit
    | some t =>
      rw [hst] at hemit
      simp only [Option.map_some', Option.some.injEq] at hemit
      have ht := stripTot_some _ _ _ _ _ _ _ hst
      rw [← hemit, dotWeightAt, ← ht]

theorem dotSample_isSome (buf : List ℕ) (w : ℕ) (srgb : Bool) (sf : ℝ)
    (strip dstpos : ℕ)
    (hb : ∀ row ∈ List.range DOTIMG_STRIPHEIGHT,
        (DOTIMG_STRIPHEIGHT * strip + row) * w + dstpos < buf.length) :
    (dotSample buf w srgb sf strip dstpos).isSome := by
  rw [dotSample]
  split
  · rfl
  · have hst := stripTot_isSome buf w srgb strip dstpos _ hb
    cases hst2 : stripTot buf w srgb strip dstpos (List.range DOTIMG_STRIPHEIGHT) with
    | none => rw [hst2] at hst; exact Bool.noConfusion hst
    | some t => rfl

theorem dotLoop_some (buf : List ℕ) (w : ℕ) (srgb : Bool) (sf : ℝ) :
    ∀ (ps : List (ℕ × ℕ)) (samples : List (ℝ × ℝ)),
      dotLoop buf w srgb sf ps = some samples →
      samples = ps.filterMap fun p => (dotSample buf w srgb sf p.1 p.2).join := by
  intro ps
  induction ps with
  | nil =>
    intro samples hs
    simp only [dotLoop, Option.some.injEq] at hs
    simp [← hs]
  | cons p rest ih =>
    intro samples hs
    rw [dotLoop] at hs
    cases hd : dotSample buf w srgb sf p.1 p.2 with
    | none => rw [hd] at hs; exact Option.noConfusion hs
    | some o =>
      cases o with
      | none =>
        rw [hd] at hs
        have hj : (dotSample buf w srgb sf p.1 p.2).join = none := by rw [hd]; rfl
        rw [List.filterMap_cons, hj]
        exact ih samples hs
      | some s =>
        rw [hd] at hs
        cases hrec : dotLoop buf w srgb sf rest with
        | none => rw [hrec] at hs; exact Option.noConfusion hs
        | some rest2 =>
          rw [hrec] at hs
          simp only [Option.map_some', Option.some.injEq] at hs
          have hj : (dotSample buf w srgb sf p.1 p.2).join = some s := by rw [hd]; rfl
          rw [List.filterMap_cons, hj, ← hs, ih rest2 hrec]

theorem dotLoop_isSome (buf : List ℕ) (w : ℕ) (srgb : Bool) (sf : ℝ) :
    ∀ ps : List (ℕ × ℕ),
      (∀ p ∈ ps, (dotSample buf w srgb sf p.1 p.2).isSome) →
      (dotLoop buf w srgb sf ps).isSome := by
  intro ps
  induction ps with
  | nil => intro _; rw [dotLoop]; rfl
  | cons p rest ih =>
    intro hb
    rw [dotLoop]
    have hp := hb p (List.mem_cons_self p rest)
    have hrec := ih fun q hq => hb q (List.mem_cons_of_mem p hq)
    cases hd : dotSample buf w srgb sf p.1 p.2 with
    | none => rw [hd] at hp; exact Bool.noConfusion hp
    | some o =>
      cases o with
      | none => exact hrec
      | some s =>
        cases hrec2 : dotLoop buf w srgb sf rest with
        | none => rw [hrec2] at hrec; exact Bool.noConfusion hrec
        | some rest2 => rfl

theorem rs_analyze_dot_some (buf : List ℕ) (w h : ℕ) (srgb : Bool)
    (sf : ℝ) (samples : List (ℝ × ℝ))
    (hd : rs_analyze_dot buf w h srgb = some (sf, samples)) :
    sf = (w : ℝ) / (DOTIMG_SRC_WIDTH : ℝ) ∧
    samples = (dotPairs w).filterMap fun p => (dotSample buf w srgb sf p.1 p.2).join := by
  rw [rs_analyze_dot] at hd
  cases hloop : dotLoop buf w srgb ((w : ℝ) / (DOTIMG_SRC_WIDTH : ℝ)) (dotPairs w) with
  | none => rw [hloop] at hd; exact Option.noConfusion hd
  | some samples0 =>
    rw [hloop] at hd
    simp only [Option.map_some', Option.some.injEq, Prod.mk.injEq] at hd
    obtain ⟨hsf, hs⟩ := hd
    subst hsf
    exact ⟨rfl, by rw [← hs, dotLoop_some _ _ _ _ _ _ hloop]⟩

theorem mem_dotPairs (w : ℕ) (p : ℕ × ℕ) :
    p ∈ dotPairs w ↔ p.1 < DOTIMG_NUMSTRIPS ∧ p.2 < w := by
  obtain ⟨strip, dstpos⟩ := p
  simp [dotPairs, List.mem_flatMap, List.mem_map, List.mem_range, eq_comm]

theorem pairs_length (w : ℕ) :
    ∀ n : ℕ, ((List.range n).flatMap fun strip =>
      (List.range w).map fun dstpos => (strip, dstpos)).length = n * w := by
  intro n
  induction n with
  | zero => simp
  | succ n ih =>
    rw [List.range_succ, List.flatMap_append, List.length_append, ih]
    simp [Nat.succ_mul]

theorem dotPairs_length (w : ℕ) : (dotPairs w).length = DOTIMG_NUMSTRIPS * w :=
  pairs_length w DOTIMG_NUMSTRIPS

/-! ### The candidate dot centers and the nearest-zero-point scan -/

theorem mem_dotCenters_aux :
    ∀ (fuel k m : ℕ), DOTIMG_SRC_WIDTH - DOTIMG_HCENTER - k ≤ fuel →
      m ∈ dotCenters k → k ≤ m ∧ m < DOTIMG_SRC_WIDTH - DOTIMG_HCENTER := by
  intro fuel
  induction fuel with
  | zero =>
    intro k m hle hm
    rw [dotCenters] at hm
    split at hm
    · rename_i hk; exact absurd hle (by omega)
    · exact absurd hm (List.not_mem_nil m)
  | succ n ih =>
    intro k m hle hm
    rw [dotCenters] at hm
    split at hm
    · rename_i hk
      rcases List.mem_cons.mp hm with hm | hm
      · exact ⟨le_of_eq hm.symm, by omega⟩
      · have := ih (k + DOTIMG_HPIXELSPAN) m
          (by simp only [DOTIMG_SRC_WIDTH, DOTIMG_HCENTER, DOTIMG_HPIXELSPAN] at *; omega) hm
        exact ⟨by omega, this.2⟩
    · exact absurd hm (List.not_mem_nil m)

theorem mem_dotCenters (k m : ℕ) (hm : m ∈ dotCenters k) :
    k ≤ m ∧ m < DOTIMG_SRC_WIDTH - DOTIMG_HCENTER :=
  mem_dotCenters_aux (DOTIMG_SRC_WIDTH - DOTIMG_HCENTER) k m (by omega) hm

theorem offsetStep_cases (sf : ℝ) (w dstpos : ℕ) (init : ℝ) (k : ℕ) :
    offsetStep sf w dstpos init k = init ∨
    offsetStep sf w dstpos init k = (dstpos : ℝ) - zeroPoint sf w k := by
  rw [offsetStep]
  split
  · exact Or.inr rfl
  · exact Or.inl rfl

theorem offsetStep_le_init (sf : ℝ) (w dstpos : ℕ) (init : ℝ) (k : ℕ) :
    |offsetStep sf w dstpos init k| ≤ |init| := by
  rw [offsetStep]
  split
  · exact le_of_lt ‹_›
  · exact le_refl _

theorem offsetStep_le_cand (sf : ℝ) (w dstpos : ℕ) (init : ℝ) (k : ℕ) :
    |offsetStep sf w dstpos init k| ≤ |(dstpos : ℝ) - zeroPoint sf w k| := by
  rw [offsetStep]
  split
  · exact le_refl _
  · exact not_lt.mp ‹_›

theorem foldl_offsetStep_stays (sf : ℝ) (w dstpos : ℕ) :
    ∀ (l : List ℕ) (init : ℝ),
      (∀ k ∈ l, ¬ |(dstpos : ℝ) - zeroPoint sf w k| < |init|) →
      l.foldl (offsetStep sf w dstpos) init = init := by
  intro l
  induction l with
  | nil => intro init _; rfl
  | cons a rest ih =>
    intro init hno
    rw [List.foldl_cons]
    have ha : offsetStep sf w dstpos init a = init := by
      rw [offsetStep]
      exact if_neg (hno a (List.mem_cons_self a rest))
    rw [ha]
    exact ih init fun k hk => hno k (List.mem_cons_of_mem a hk)

theorem foldl_offsetStep_spec (sf : ℝ) (w dstpos : ℕ) :
    ∀ (l : List ℕ) (init : ℝ),
      (l.foldl (offsetStep sf w dstpos) init = init ∨
        ∃ k ∈ l, l.foldl (offsetStep sf w dstpos) init = (dstpos : ℝ) - zeroPoint sf w k) ∧
      |l.foldl (offsetStep sf w dstpos) init| ≤ |init| ∧
      ∀ k ∈ l, |l.foldl (offsetStep sf w dstpos) init| ≤ |(dstpos : ℝ) - zeroPoint sf w k| := by
  intro l
  induction l with
  | nil =>
    refine fun init => ⟨Or.inl rfl, le_refl _, fun k hk => ?_⟩
    exact absurd hk (List.not_mem_nil k)
  | cons a rest ih =>
    intro init
    rw [List.foldl_cons]
    obtain ⟨hcase, hle, hall⟩ := ih (offsetStep sf w dstpos init a)
    refine ⟨?_, le_trans hle (offsetStep_le_init sf w dstpos init a), ?_⟩
    · rcases hcase with hc | ⟨k, hk, hc⟩
      · rcases offsetStep_cases sf w dstpos init a with hs | hs
        · exact Or.inl (by rw [hc, hs])
        · exact Or.inr ⟨a, List.mem_cons_self a rest, by rw [hc, hs]⟩
      · exact Or.inr ⟨k, List.mem_cons_of_mem a hk, hc⟩
    · intro k hk
      rcases List.mem_cons.mp hk with hk | hk
      · subst hk
        exact le_trans hle (offsetStep_le_cand sf w dstpos init k)
      · exact hall k hk

theorem bestOffset_spec (sf : ℝ) (w dstpos strip : ℕ) :
    (bestOffset sf w dstpos strip = 10000 ∨
      ∃ k ∈ dotCenters (DOTIMG_HCENTER + strip),
        bestOffset sf w dstpos strip = (dstpos : ℝ) - zeroPoint sf w k) ∧
    ∀ k ∈ dotCenters (DOTIMG_HCENTER + strip),
      |bestOffset sf w dstpos strip| ≤ |(dstpos : ℝ) - zeroPoint sf w k| := by
  obtain ⟨hcase, _, hall⟩ :=
    foldl_offsetStep_spec sf w dstpos (dotCenters (DOTIMG_HCENTER + strip)) 10000
  exact ⟨hcase, hall⟩

/-! ### Row-major indexing of the generated patterns -/

theorem flatRows_length (g : ℕ → ℕ → ℕ) (W : ℕ) :
    ∀ n : ℕ, ((List.range n).flatMap fun j => (List.range W).map (g j)).length = n * W := by
  intro n
  induction n with
  | zero => simp
  | succ n ih =>
    rw [List.range_succ n, List.flatMap_append, List.length_append, ih]
    simp [Nat.succ_mul]

theorem flatRows_getElem (g : ℕ → ℕ → ℕ) (W : ℕ) :
    ∀ (rows j i : ℕ), j < rows → i < W →
      ((List.range rows).flatMap fun j => (List.range W).map (g j))[j * W + i]? =
        some (g j i) := by
  intro rows
  induction rows with
  | zero => intro j i hj _; exact absurd hj (Nat.not_lt_zero j)
  | succ n ih =>
    intro j i hj hi
    rw [List.range_succ n, List.flatMap_append]
    rcases Nat.lt_succ_iff_lt_or_eq.mp hj with hj2 | hj2
    · have h1 : j * W + i < (j + 1) * W := by rw [Nat.succ_mul]; omega
      have h2 : (j + 1) * W ≤ n * W := Nat.mul_le_mul_right W hj2
      rw [List.getElem?_append, if_pos (by rw [flatRows_length]; omega)]
      exact ih j i hj2 hi
    · subst hj2
      rw [List.getElem?_append, if_neg (by rw [flatRows_length]; omega)]
      rw [flatRows_length]
      have h3 : j * W + i - j * W = i := by omega
      rw [h3]
      simp only [List.flatMap_cons, List.flatMap_nil, List.append_nil, List.getElem?_map]
      rw [List.getElem?_range hi]
      rfl

/-! ### The two modulus conventions on the dot pattern -/

theorem tmod_emod_hcenter (a : ℤ) (h : -12 ≤ a) :
    a.tmod 25 = 12 ↔ a % 25 = 12 := by
  rcases le_or_lt 0 a with h0 | h0
  · rw [Int.tmod_eq_emod h0 (by norm_num)]
  · interval_cases a <;> decide

theorem dotPatternPixel_eq_emod (i j : ℕ) (hj : j < DOTIMG_SRC_HEIGHT) :
    dotPatternPixel i j = dotPatternPixelEmod i j := by
  rw [dotPatternPixel, dotPatternPixelEmod]
  apply if_congr _ rfl rfl
  apply and_congr_right
  intro ha
  apply and_congr_right
  intro hb
  apply and_congr_right
  intro hc
  have h12 : -12 ≤ (i : ℤ) - (j / DOTIMG_STRIPHEIGHT : ℕ) := by
    norm_num [DOTIMG_STRIPHEIGHT, DOTIMG_SRC_HEIGHT, DOTIMG_HCENTER, DOTIMG_NUMSTRIPS,
      DOTIMG_HPIXELSPAN] at hj hb ⊢
    omega
  have key := tmod_emod_hcenter ((i : ℤ) - (j / DOTIMG_STRIPHEIGHT : ℕ)) h12
  simp only [DOTIMG_HPIXELSPAN, DOTIMG_HCENTER]
  push_cast
  convert key using 2

theorem flatMap_congr_mem (l : List ℕ) (f g : ℕ → List ℕ) (h : ∀ j ∈ l, f j = g j) :
    l.flatMap f = l.flatMap g := by
  induction l with
  | nil => rfl
  | cons a rest ih =>
    rw [List.flatMap_cons, List.flatMap_cons, h a (List.mem_cons_self a rest),
      ih fun j hj => h j (List.mem_cons_of_mem a hj)]

/-- C5: in the raster produced by `rs_generate_dot_pattern`, the pixel at
`(i, j)` equals `BRIGHT` (250) if and only if `j mod STRIP_HEIGHT = V_CENTER`,
`H_CENTER ≤ i < SRC_WIDTH − H_CENTER`, and
`(i − j/STRIP_HEIGHT) rem H_PIXEL_SPAN = H_CENTER` where `rem` (`Int.tmod`)
carries the dividend's sign, so a negative remainder never matches the positive
`H_CENTER`; every other pixel equals `DARK` (50). -/
theorem dot_pattern_pixels (i j : ℕ) (hi : i < DOTIMG_SRC_WIDTH) (hj : j < DOTIMG_SRC_HEIGHT) :
    rs_generate_dot_pattern[j * DOTIMG_SRC_WIDTH + i]? =
      some (if j % DOTIMG_STRIPHEIGHT = DOTIMG_VCENTER ∧ DOTIMG_HCENTER ≤ i ∧
              i < DOTIMG_SRC_WIDTH - DOTIMG_HCENTER ∧
              Int.tmod ((i : ℤ) - (j / DOTIMG_STRIPHEIGHT : ℕ)) DOTIMG_HPIXELSPAN
                = DOTIMG_HCENTER
            then BRIGHT else DARK) := by
  have h := flatRows_getElem (fun j i => dotPatternPixel i j)
    DOTIMG_SRC_WIDTH DOTIMG_SRC_HEIGHT j i hj hi
  rw [rs_generate_dot_pattern]
  exact h

/-- C5 witness: the pixel at column 12 of row 5 (the center row of strip 0)
is `BRIGHT`. -/
theorem dot_pattern_pixels_witness :
    (12 < DOTIMG_SRC_WIDTH ∧ 5 < DOTIMG_SRC_HEIGHT) ∧
    rs_generate_dot_pattern[5 * DOTIMG_SRC_WIDTH + 12]? = some BRIGHT := by
  refine ⟨⟨by norm_num, by norm_num⟩, ?_⟩
  rw [dot_pattern_pixels 12 5 (by norm_num) (by norm_num), if_pos (by decide)]

/-- C9: `rs_generate_dot_pattern` produces a byte-identical raster if the
sign-of-dividend remainder is replaced by the mathematical always-non-negative
modulus: on the center rows, `i − j/STRIP_HEIGHT ≥ −12 > −25`, so a negative
remainder is never congruent to `H_CENTER = 12` and both conventions place
exactly the same bright pixels. -/
theorem dot_pattern_mod_refinement :
    rs_generate_dot_pattern = rs_generate_dot_pattern_emod := by
  rw [rs_generate_dot_pattern, rs_generate_dot_pattern_emod]
  apply flatMap_congr_mem
  intro j hj
  apply List.map_congr_left
  intro i _
  exact dotPatternPixel_eq_emod i j (List.mem_range.mp hj)

/-! ### Row selection and in-bounds reads of the line analyzer -/

theorem lineSampleY_lt (h i : ℕ) (hh : 1 ≤ h) : lineSampleY h i < h := by
  rw [lineSampleY]
  split
  · dsimp only
    split_ifs <;> omega
  · omega

/-- C8: for every destination column `i` of `rs_analyze_line`, the sampled row
is: when `h ≥ 3`, the value `h/2 + (i mod 3) − 1` (with `h/2` an integer
division) clamped into `[0, h−1]`, cycling through three adjacent rows as `i`
increases; and when `h < 3`, always the row `h/2`. -/
theorem line_sample_row_spec (h i : ℕ) :
    (3 ≤ h → (lineSampleY h i : ℤ) =
      max 0 (min (((h / 2 : ℕ) : ℤ) + ((i % 3 : ℕ) : ℤ) - 1) ((h : ℤ) - 1))) ∧
    (h < 3 → lineSampleY h i = h / 2) := by
  constructor
  · intro h3
    rw [lineSampleY, if_pos h3]
    simp only [Int.max_def, Int.min_def]
    split_ifs <;> omega
  · intro hlt
    rw [lineSampleY, if_neg (by omega)]

/-- C8 witness: at `h = 4`, `i = 2` the chosen row is `4/2 + 2 - 1 = 3`,
which the clamp leaves unchanged, and at `h = 2` the row is `2/2 = 1`. -/
theorem line_sample_row_spec_witness :
    (3 ≤ 4 ∧ (lineSampleY 4 2 : ℤ) =
      max 0 (min (((4 / 2 : ℕ) : ℤ) + ((2 % 3 : ℕ) : ℤ) - 1) ((4 : ℤ) - 1))) ∧
    (2 < 3 ∧ lineSampleY 2 7 = 2 / 2) :=
  ⟨⟨by norm_num, (line_sample_row_spec 4 2).1 (by norm_num)⟩,
   ⟨by norm_num, (line_sample_row_spec 2 7).2 (by norm_num)⟩⟩

/-- C10: for every `w ≥ 1`, `h ≥ 1`, srgb flag, and input buffer of at least
`h·w` bytes with stride `w`, every pixel read performed by `rs_analyze_line`
accesses a column in `[0, w)` and a row in `[0, h−1]` — the clamp bounds the
cycled row when `h ≥ 3` and `h/2` lies in `[0, h−1]` when `h < 3` — so the
analyzer never hits the out-of-bounds (`none`) branch. -/
theorem line_reads_in_bounds (buf : List ℕ) (w h : ℕ) (srgb : Bool)
    (hw : 1 ≤ w) (hh : 1 ≤ h) (hbuf : h * w ≤ buf.length) :
    (∀ i : ℕ, i < w → lineSampleY h i ≤ h - 1) ∧
    (rs_analyze_line buf w h srgb).isSome := by
  refine ⟨fun i _ => ?_, ?_⟩
  · have := lineSampleY_lt h i hh
    omega
  rw [rs_analyze_line]
  have hl := lineLoop_isSome buf w h srgb ((w : ℝ) / (LINEIMG_SRC_WIDTH : ℝ))
    (List.range w) ?_
  · cases hloop : lineLoop buf w h srgb ((w : ℝ) / (LINEIMG_SRC_WIDTH : ℝ)) (List.range w) with
    | none => rw [hloop] at hl; exact Bool.noConfusion hl
    | some r => rfl
  · intro i hi
    have hiw : i < w := List.mem_range.mp hi
    have hy : lineSampleY h i < h := lineSampleY_lt h i hh
    calc lineSampleY h i * w + i < lineSampleY h i * w + w := by omega
      _ = (lineSampleY h i + 1) * w := (Nat.succ_mul (lineSampleY h i) w).symm
      _ ≤ h * w := Nat.mul_le_mul_right w hy
      _ ≤ buf.length := hbuf

/-- C10 witness: a 1×1 buffer with stride 1 is analyzed without any
out-of-bounds read. -/
theorem line_reads_in_bounds_witness :
    (1 ≤ 1 ∧ 1 * 1 ≤ ([DARK] : List ℕ).length) ∧
    lineSampleY 1 0 ≤ 1 - 1 ∧
    (rs_analyze_line [DARK] 1 1 false).isSome := by
  have h := line_reads_in_bounds [DARK] 1 1 false (le_refl 1) (le_refl 1) (by norm_num)
  exact ⟨⟨le_refl 1, by norm_num⟩, h.1 0 (by norm_num), h.2⟩

/-! ### The sRGB anchor identities -/

theorem c_srgb_to_linear_anchor_lt :
    c_srgb_to_linear (50 / 255) < c_srgb_to_linear (250 / 255) := by
  rw [c_srgb_to_linear, if_neg (by norm_num), c_srgb_to_linear, if_neg (by norm_num)]
  exact Real.rpow_lt_rpow (by norm_num) (by norm_num) (by norm_num)

theorem convertPixel_false (raw : ℝ) : convertPixel false raw = raw := rfl

theorem convertPixel_true_dark : convertPixel true 50 = 50 := by
  rw [convertPixel]
  norm_num

theorem convertPixel_true_bright : convertPixel true 250 = 250 := by
  rw [convertPixel]
  have hd : c_srgb_to_linear (250 / 255) - c_srgb_to_linear (50 / 255) ≠ 0 :=
    sub_ne_zero.mpr (ne_of_gt c_srgb_to_linear_anchor_lt)
  rw [if_pos rfl, mul_comm, div_mul_cancel₀ _ hd]
  norm_num

/-- C6: for every raster, stride and coordinates, `read_pixel` applied to a raw
byte value of 50 returns exactly 50.0 and applied to 250 returns exactly 250.0,
both with the sRGB flag on (after sRGB-to-linear conversion and the affine
remap anchored at the linear values of 50/255 and 250/255) and off. -/
theorem read_pixel_srgb_anchors (buf : List ℕ) (stride x y : ℕ) (b : ℕ)
    (hb : buf[y * stride + x]? = some b) :
    (b = DARK → read_pixel buf stride x y true = some 50 ∧
                read_pixel buf stride x y false = some 50) ∧
    (b = BRIGHT → read_pixel buf stride x y true = some 250 ∧
                  read_pixel buf stride x y false = some 250) := by
  constructor
  · intro h50
    subst h50
    rw [read_pixel_eq_map, read_pixel_eq_map, hb, Option.map_some', Option.map_some']
    norm_num [convertPixel_true_dark, convertPixel_false]
  · intro h250
    subst h250
    rw [read_pixel_eq_map, read_pixel_eq_map, hb, Option.map_some', Option.map_some']
    norm_num [convertPixel_true_bright, convertPixel_false]

/-- C6 witness: on the one-byte buffers `[50]` and `[250]` the sRGB-corrected
read returns exactly 50.0 and 250.0. -/
theorem read_pixel_srgb_anchors_witness :
    (([DARK] : List ℕ)[0 * 1 + 0]? = some DARK ∧
      ([BRIGHT] : List ℕ)[0 * 1 + 0]? = some BRIGHT) ∧
    (read_pixel [DARK] 1 0 0 true = some 50 ∧
      read_pixel [BRIGHT] 1 0 0 true = some 250) := by
  refine ⟨⟨rfl, rfl⟩, ?_, ?_⟩
  · exact ((read_pixel_srgb_anchors [DARK] 1 0 0 DARK rfl).1 rfl).1
  · exact ((read_pixel_srgb_anchors [BRIGHT] 1 0 0 BRIGHT rfl).2 rfl).1

/-! ### Concrete runs of the line analyzer -/

theorem line1_eq :
    rs_analyze_line [BRIGHT] 1 1 false = some (1 / 15, [((0 : ℝ), (15 : ℝ))], 15) := by
  have hr : List.range 1 = [0] := rfl
  simp only [rs_analyze_line, hr, lineLoop, read_pixel, lineSampleY, convertPixel,
    List.getElem?_cons_zero, Option.map_some']
  norm_num

/-- The samples emitted by the line analyzer on an all-`BRIGHT` 16×1 buffer:
the pre-rescale weight is 1 everywhere and, because `scale_factor = 16/15 > 1`,
each offset `0.5 + i − 8` is divided by `16/15`. -/
noncomputable def line16samples : List (ℝ × ℝ) :=
  [(-225/32, 1), (-195/32, 1), (-165/32, 1), (-135/32, 1), (-105/32, 1), (-75/32, 1),
   (-45/32, 1), (-15/32, 1), (15/32, 1), (45/32, 1), (75/32, 1), (105/32, 1),
   (135/32, 1), (165/32, 1), (195/32, 1), (225/32, 1)]

theorem line16_eq :
    rs_analyze_line (List.replicate 16 BRIGHT) 16 1 false =
      some (16 / 15, line16samples, 15) := by
  have hr : List.range 16 = [0, 1, 2, 3, 4, 5, 6, 7, 8, 9, 10, 11, 12, 13, 14, 15] := rfl
  rw [rs_analyze_line, hr]
  norm_num [lineLoop, read_pixel, lineSampleY, convertPixel, List.getElem?_replicate,
    line16samples]

theorem dot0_eq :
    rs_analyze_dot (List.replicate DOTIMG_SRC_HEIGHT DARK) 0 DOTIMG_SRC_HEIGHT false =
      some (0, []) := by
  have hp : dotPairs 0 = [] := rfl
  rw [rs_analyze_dot, hp, dotLoop]
  norm_num

theorem dot_sample_of_mem (buf : List ℕ) (w h : ℕ) (srgb : Bool)
    (sf : ℝ) (samples : List (ℝ × ℝ))
    (hd : rs_analyze_dot buf w h srgb = some (sf, samples)) :
    ∀ s ∈ samples, ∃ strip dstpos : ℕ, strip < DOTIMG_NUMSTRIPS ∧ dstpos < w ∧
      dotSample buf w srgb sf strip dstpos = some (some s) := by
  intro s hs
  obtain ⟨hsf, hchar⟩ := rs_analyze_dot_some buf w h srgb sf samples hd
  rw [hchar] at hs
  obtain ⟨p, hp, hps⟩ := List.mem_filterMap.mp hs
  obtain ⟨h1, h2⟩ := (mem_dotPairs w p).mp hp
  refine ⟨p.1, p.2, h1, h2, ?_⟩
  cases hds : dotSample buf w srgb sf p.1 p.2 with
  | none => rw [hds] at hps; exact Option.noConfusion hps
  | some o =>
    cases o with
    | none => rw [hds] at hps; exact Option.noConfusion hps
    | some s2 =>
      rw [hds] at hps
      have hss : s2 = s := Option.some_inj.mp hps
      rw [hss]

/-- C1: both `rs_analyze_dot` and `rs_analyze_line` compute `scale_factor` as
`w` divided by the fixed source width in real arithmetic and return it, and
every emitted `(offset, weight)` sample rescales exactly one component: when
`scale_factor < 1` the weight is divided by `scale_factor` and the offset is
left unchanged, otherwise the offset is divided by `scale_factor` and the
weight is left unchanged. -/
theorem rescale_branch_spec :
    (∀ (buf : List ℕ) (w h : ℕ) (srgb : Bool) (sf : ℝ) (samples : List (ℝ × ℝ)),
      rs_analyze_dot buf w h srgb = some (sf, samples) →
      sf = (w : ℝ) / (DOTIMG_SRC_WIDTH : ℝ) ∧
      ∀ s ∈ samples, ∃ strip dstpos : ℕ, strip < DOTIMG_NUMSTRIPS ∧ dstpos < w ∧
        s = (if sf < 1 then
              (bestOffset sf w dstpos strip, dotWeightAt buf w srgb strip dstpos / sf)
             else
              (bestOffset sf w dstpos strip / sf, dotWeightAt buf w srgb strip dstpos))) ∧
    (∀ (buf : List ℕ) (w h : ℕ) (srgb : Bool) (sf area : ℝ) (samples : List (ℝ × ℝ)),
      rs_analyze_line buf w h srgb = some (sf, samples, area) →
      sf = (w : ℝ) / (LINEIMG_SRC_WIDTH : ℝ) ∧
      samples = (List.range w).map fun i =>
        if sf < 1 then (lineOffsetAt w i, lineWeightAt buf w h srgb i / sf)
        else (lineOffsetAt w i / sf, lineWeightAt buf w h srgb i)) := by
  constructor
  · intro buf w h srgb sf samples hd
    refine ⟨(rs_analyze_dot_some buf w h srgb sf samples hd).1, ?_⟩
    intro s hs
    obtain ⟨strip, dstpos, h1, h2, hds⟩ := dot_sample_of_mem buf w h srgb sf samples hd s hs
    exact ⟨strip, dstpos, h1, h2, (dotSample_emit buf w srgb sf strip dstpos s hds).2⟩
  · intro buf w h srgb sf area samples hl
    obtain ⟨hsf, hs, _⟩ := rs_analyze_line_some buf w h srgb sf area samples hl
    exact ⟨hsf, hs⟩

/-- C7: `rs_analyze_line` returns `area` equal to the sum, over all `w`
destination columns, of the pre-rescale weight `(sampled value − 50)/200`,
divided by `scale_factor`; this division happens for every input regardless of
whether `scale_factor` is above or below 1 (unlike the per-sample branch). -/
theorem line_area_spec (buf : List ℕ) (w h : ℕ) (srgb : Bool)
    (sf area : ℝ) (samples : List (ℝ × ℝ))
    (hl : rs_analyze_line buf w h srgb = some (sf, samples, area)) :
    area = ((List.range w).map (lineWeightAt buf w h srgb)).sum / sf :=
  (rs_analyze_line_some buf w h srgb sf area samples hl).2.2

/-- C7 witness: on the 1×1 all-bright buffer the area is
`1 / (1/15) = 15`, the single pre-rescale weight divided by the scale factor. -/
theorem line_area_spec_witness :
    rs_analyze_line [BRIGHT] 1 1 false = some (1 / 15, [((0 : ℝ), (15 : ℝ))], 15) ∧
    (15 : ℝ) = ((List.range 1).map (lineWeightAt [BRIGHT] 1 1 false)).sum / (1 / 15) :=
  ⟨line1_eq, line_area_spec [BRIGHT] 1 1 false (1 / 15) 15 [((0 : ℝ), (15 : ℝ))] line1_eq⟩

/-- C2 counterexample: on an all-`BRIGHT` 16×1 line image the scale factor is
`16/15 > 1` and the first emitted sample is `(-225/32, 1)`: the offset
`0.5 + 0 − 8 = -15/2` was divided by the scale factor while the weight kept its
pre-rescale value `1`.  The claim predicts that with `scale_factor` above 1 the
weight is rescaled and the offset kept, i.e. the sample `(-15/2, 15/16)`,
which differs. -/
theorem rescale_direction_cex :
    rs_analyze_line (List.replicate 16 BRIGHT) 16 1 false =
      some (16 / 15, line16samples, 15) ∧
    line16samples.head? = some (-225 / 32, 1) ∧
    ((-225 / 32 : ℝ), (1 : ℝ)) ≠ ((-15 / 2 : ℝ), (15 / 16 : ℝ)) := by
  refine ⟨line16_eq, by rw [line16samples, List.head?_cons], ?_⟩
  intro hc
  rw [Prod.mk.injEq] at hc
  have := hc.2
  norm_num at this

/-- C2 (amended): for analyses whose `scale_factor` is above 1 the analyzer
rescales the offset (dividing it by `scale_factor`, leaving the weight at its
pre-rescale value), and for analyses whose `scale_factor` is below 1 it
rescales the weight; it never rescales both components of a sample. -/
theorem rescale_direction_amended :
    (∀ (buf : List ℕ) (w h : ℕ) (srgb : Bool) (sf area : ℝ) (samples : List (ℝ × ℝ)),
      rs_analyze_line buf w h srgb = some (sf, samples, area) →
      ∀ i : ℕ, i < w →
        (1 ≤ sf →
          samples[i]? = some (lineOffsetAt w i / sf, lineWeightAt buf w h srgb i)) ∧
        (sf < 1 →
          samples[i]? = some (lineOffsetAt w i, lineWeightAt buf w h srgb i / sf))) ∧
    (∀ (buf : List ℕ) (w h : ℕ) (srgb : Bool) (sf : ℝ) (samples : List (ℝ × ℝ)),
      rs_analyze_dot buf w h srgb = some (sf, samples) →
      ∀ s ∈ samples, ∃ strip dstpos : ℕ, strip < DOTIMG_NUMSTRIPS ∧ dstpos < w ∧
        (1 ≤ sf →
          s = (bestOffset sf w dstpos strip / sf, dotWeightAt buf w srgb strip dstpos)) ∧
        (sf < 1 →
          s = (bestOffset sf w dstpos strip, dotWeightAt buf w srgb strip dstpos / sf))) := by
  constructor
  · intro buf w h srgb sf area samples hl i hi
    obtain ⟨hsf, hs, _⟩ := rs_analyze_line_some buf w h srgb sf area samples hl
    have hel : samples[i]? = some (if sf < 1
        then (lineOffsetAt w i, lineWeightAt buf w h srgb i / sf)
        else (lineOffsetAt w i / sf, lineWeightAt buf w h srgb i)) := by
      rw [hs, List.getElem?_map, List.getElem?_range hi, Option.map_some']
    constructor
    · intro hge
      rw [hel, if_neg (not_lt.mpr hge)]
    · intro hlt
      rw [hel, if_pos hlt]
  · intro buf w h srgb sf samples hd s hs
    obtain ⟨strip, dstpos, h1, h2, hds⟩ := dot_sample_of_mem buf w h srgb sf samples hd s hs
    have hse := (dotSample_emit buf w srgb sf strip dstpos s hds).2
    refine ⟨strip, dstpos, h1, h2, ?_, ?_⟩
    · intro hge
      rw [hse, if_neg (not_lt.mpr hge)]
    · intro hlt
      rw [hse, if_pos hlt]

theorem dotLoop_mem_isSome (buf : List ℕ) (w : ℕ) (srgb : Bool) (sf : ℝ) :
    ∀ (ps : List (ℕ × ℕ)) (l : List (ℝ × ℝ)), dotLoop buf w srgb sf ps = some l →
      ∀ p ∈ ps, (dotSample buf w srgb sf p.1 p.2).isSome := by
  intro ps
  induction ps with
  | nil => intro l _ p hp; exact absurd hp (List.not_mem_nil p)
  | cons q rest ih =>
    intro l hl p hp
    rw [dotLoop] at hl
    cases hd : dotSample buf w srgb sf q.1 q.2 with
    | none => rw [hd] at hl; exact Option.noConfusion hl
    | some o =>
      rcases List.mem_cons.mp hp with hp | hp
      · subst hp; rw [hd]; rfl
      · rw [hd] at hl
        cases o with
        | none => exact ih l hl p hp
        | some s =>
          cases hrec : dotLoop buf w srgb sf rest with
          | none => rw [hrec] at hl; exact Option.noConfusion hl
          | some rest2 => exact ih rest2 hrec p hp

theorem rs_analyze_dot_isSome_sample (buf : List ℕ) (w h : ℕ) (srgb : Bool)
    (sf : ℝ) (samples : List (ℝ × ℝ))
    (hd : rs_analyze_dot buf w h srgb = some (sf, samples)) :
    ∀ p ∈ dotPairs w, (dotSample buf w srgb sf p.1 p.2).isSome := by
  obtain ⟨hsf, _⟩ := rs_analyze_dot_some buf w h srgb sf samples hd
  subst hsf
  rw [rs_analyze_dot] at hd
  cases hloop : dotLoop buf w srgb ((w : ℝ) / (DOTIMG_SRC_WIDTH : ℝ)) (dotPairs w) with
  | none => rw [hloop] at hd; exact Option.noConfusion hd
  | some l => exact dotLoop_mem_isSome buf w srgb _ (dotPairs w) l hloop

/-- C4 (amended): `rs_analyze_dot` emits no sample for a
`(strip, destination column)` pair exactly when the magnitude of the scan's
tracked best offset exceeds `scale_factor · H_CENTER` — the tracked best
offset is a candidate offset of smallest magnitude, except that its magnitude
is capped by the sentinel initial value 10000, so the skip test is applied to
the sentinel when every candidate is at least 10000 away; consequently the
returned sample count is at most `NUM_STRIPS × w`, and the emitted samples are
the skip-filtered iteration in strip-major, then destination-column order. -/
theorem dot_skip_count_order (buf : List ℕ) (w h : ℕ) (srgb : Bool)
    (sf : ℝ) (samples : List (ℝ × ℝ))
    (hd : rs_analyze_dot buf w h srgb = some (sf, samples)) :
    samples = (dotPairs w).filterMap (fun p => (dotSample buf w srgb sf p.1 p.2).join) ∧
    samples.length ≤ DOTIMG_NUMSTRIPS * w ∧
    (∀ strip dstpos : ℕ, strip < DOTIMG_NUMSTRIPS → dstpos < w →
      ((dotSample buf w srgb sf strip dstpos).join = none ↔
        |bestOffset sf w dstpos strip| > sf * (DOTIMG_HCENTER : ℝ))) ∧
    ∀ strip dstpos : ℕ,
      |bestOffset sf w dstpos strip| ≤ 10000 ∧
      (bestOffset sf w dstpos strip = 10000 ∨
        ∃ k ∈ dotCenters (DOTIMG_HCENTER + strip),
          bestOffset sf w dstpos strip = (dstpos : ℝ) - zeroPoint sf w k) ∧
      ∀ k ∈ dotCenters (DOTIMG_HCENTER + strip),
        |bestOffset sf w dstpos strip| ≤ |(dstpos : ℝ) - zeroPoint sf w k| := by
  obtain ⟨hsf, hchar⟩ := rs_analyze_dot_some buf w h srgb sf samples hd
  refine ⟨hchar, ?_, ?_, ?_⟩
  · rw [hchar, ← dotPairs_length w]
    exact List.length_filterMap_le _ _
  · intro strip dstpos h1 h2
    have hsome := rs_analyze_dot_isSome_sample buf w h srgb sf samples hd (strip, dstpos)
      ((mem_dotPairs w (strip, dstpos)).mpr ⟨h1, h2⟩)
    constructor
    · intro hjoin
      cases ho : dotSample buf w srgb sf strip dstpos with
      | none => rw [ho] at hsome; exact Bool.noConfusion hsome
      | some o =>
        cases o with
        | none => exact (dotSample_skip_iff buf w srgb sf strip dstpos).mp ho
        | some s =>
          rw [ho] at hjoin
          exact Option.noConfusion hjoin
    · intro hskip
      rw [(dotSample_skip_iff buf w srgb sf strip dstpos).mpr hskip]
      rfl
  · intro strip dstpos
    obtain ⟨hcase, hle, hall⟩ :=
      foldl_offsetStep_spec sf w dstpos (dotCenters (DOTIMG_HCENTER + strip)) 10000
    rw [show |(10000 : ℝ)| = 10000 by rw [abs_ite, if_pos (by norm_num)]] at hle
    exact ⟨hle, hcase, hall⟩

/-! ### Evaluating the candidate scan -/

theorem dotCenters_cons (k : ℕ) (h : k < DOTIMG_SRC_WIDTH - DOTIMG_HCENTER) :
    dotCenters k = k :: dotCenters (k + DOTIMG_HPIXELSPAN) := by
  rw [dotCenters]; exact dif_pos h

theorem dotCenters_nil (k : ℕ) (h : ¬ k < DOTIMG_SRC_WIDTH - DOTIMG_HCENTER) :
    dotCenters k = [] := by
  rw [dotCenters]; exact dif_neg h

theorem dotCenters_12 :
    dotCenters 12 = [12, 37, 62, 87, 112, 137, 162, 187, 212, 237, 262, 287, 312, 337, 362, 387, 412, 437, 462, 487, 512, 537] := by
  rw [
    dotCenters_cons 12 (by decide), show (12:ℕ) + DOTIMG_HPIXELSPAN = 37 from rfl,
    dotCenters_cons 37 (by decide), show (37:ℕ) + DOTIMG_HPIXELSPAN = 62 from rfl,
    dotCenters_cons 62 (by decide), show (62:ℕ) + DOTIMG_HPIXELSPAN = 87 from rfl,
    dotCenters_cons 87 (by decide), show (87:ℕ) + DOTIMG_HPIXELSPAN = 112 from rfl,
    dotCenters_cons 112 (by decide), show (112:ℕ) + DOTIMG_HPIXELSPAN = 137 from rfl,
    dotCenters_cons 137 (by decide), show (137:ℕ) + DOTIMG_HPIXELSPAN = 162 from rfl,
    dotCenters_cons 162 (by decide), show (162:ℕ) + DOTIMG_HPIXELSPAN = 187 from rfl,
    dotCenters_cons 187 (by decide), show (187:ℕ) + DOTIMG_HPIXELSPAN = 212 from rfl,
    dotCenters_cons 212 (by decide), show (212:ℕ) + DOTIMG_HPIXELSPAN = 237 from rfl,
    dotCenters_cons 237 (by decide), show (237:ℕ) + DOTIMG_HPIXELSPAN = 262 from rfl,
    dotCenters_cons 262 (by decide), show (262:ℕ) + DOTIMG_HPIXELSPAN = 287 from rfl,
    dotCenters_cons 287 (by decide), show (287:ℕ) + DOTIMG_HPIXELSPAN = 312 from rfl,
    dotCenters_cons 312 (by decide), show (312:ℕ) + DOTIMG_HPIXELSPAN = 337 from rfl,
    dotCenters_cons 337 (by decide), show (337:ℕ) + DOTIMG_HPIXELSPAN = 362 from rfl,
    dotCenters_cons 362 (by decide), show (362:ℕ) + DOTIMG_HPIXELSPAN = 387 from rfl,
    dotCenters_cons 387 (by decide), show (387:ℕ) + DOTIMG_HPIXELSPAN = 412 from rfl,
    dotCenters_cons 412 (by decide), show (412:ℕ) + DOTIMG_HPIXELSPAN = 437 from rfl,
    dotCenters_cons 437 (by decide), show (437:ℕ) + DOTIMG_HPIXELSPAN = 462 from rfl,
    dotCenters_cons 462 (by decide), show (462:ℕ) + DOTIMG_HPIXELSPAN = 487 from rfl,
    dotCenters_cons 487 (by decide), show (487:ℕ) + DOTIMG_HPIXELSPAN = 512 from rfl,
    dotCenters_cons 512 (by decide), show (512:ℕ) + DOTIMG_HPIXELSPAN = 537 from rfl,
    dotCenters_cons 537 (by decide), show (537:ℕ) + DOTIMG_HPIXELSPAN = 562 from rfl,
    dotCenters_nil 562 (by decide)]

theorem dot1_bestOffset : bestOffset (1 / 557) 1 0 0 = -9 / 557 := by
  rw [bestOffset, show DOTIMG_HCENTER + 0 = 12 from rfl, dotCenters_12]
  simp only [List.foldl_cons, List.foldl_nil]
  norm_num [offsetStep, zeroPoint, abs_ite]

set_option maxRecDepth 4000 in
theorem dot1_sample_eq :
    dotSample (List.replicate DOTIMG_SRC_HEIGHT DARK) 1 false (1 / 557) 0 0 =
      some (some (-9 / 557, 0)) := by
  have hrows : List.range DOTIMG_STRIPHEIGHT = [0, 1, 2, 3, 4, 5, 6, 7, 8, 9, 10] := rfl
  simp only [dotSample, dot1_bestOffset, hrows]
  norm_num [abs_ite, stripTot, read_pixel, convertPixel, List.getElem?_replicate,
    DOTIMG_HCENTER, DOTIMG_HPIXELSPAN, DOTIMG_STRIPHEIGHT, DOTIMG_SRC_HEIGHT,
    DOTIMG_NUMSTRIPS]

/-! ### A pathologically wide dot analysis where the sentinel offset escapes -/

/-- An all-dark buffer large enough for a 464167-wide destination image. -/
def dotBigBuf : List ℕ := List.replicate (DOTIMG_SRC_HEIGHT * 464167) DARK

theorem dotBigBuf_length : dotBigBuf.length = DOTIMG_SRC_HEIGHT * 464167 := by
  rw [dotBigBuf, List.length_replicate]

theorem zeroPoint_big_ge (k : ℕ) (hk : 12 ≤ k) :
    (10000 : ℝ) ≤ zeroPoint (464167 / 557) 464167 k := by
  rw [zeroPoint]
  have hk2 : (12 : ℝ) ≤ (k : ℝ) := by exact_mod_cast hk
  have hmul : (464167 / 557 : ℝ) * ((12 : ℝ) + 0.5 - (DOTIMG_SRC_WIDTH : ℝ) / 2) ≤
      (464167 / 557 : ℝ) * ((k : ℝ) + 0.5 - (DOTIMG_SRC_WIDTH : ℝ) / 2) :=
    mul_le_mul_of_nonneg_left (by linarith) (by norm_num)
  have hnum : (464167 / 557 : ℝ) * ((12 : ℝ) + 0.5 - (DOTIMG_SRC_WIDTH : ℝ) / 2) +
      ((464167 : ℕ) : ℝ) / 2 - 0.5 = 5801809 / 557 := by
    norm_num [DOTIMG_SRC_WIDTH]
  have hge : (10000 : ℝ) ≤ 5801809 / 557 := by norm_num
  linarith

theorem big_bestOffset : bestOffset (464167 / 557) 464167 0 0 = 10000 := by
  rw [bestOffset, show DOTIMG_HCENTER + 0 = 12 from rfl]
  apply foldl_offsetStep_stays
  intro k hk
  have h12 : 12 ≤ k := (mem_dotCenters 12 k hk).1
  have hzp := zeroPoint_big_ge k h12
  rw [not_lt]
  have h0 : ((0 : ℕ) : ℝ) - zeroPoint (464167 / 557) 464167 k ≤ -10000 := by
    push_cast
    linarith
  have habs : (10000 : ℝ) ≤ |((0 : ℕ) : ℝ) - zeroPoint (464167 / 557) 464167 k| := by
    rw [abs_ite, if_neg (by linarith)]
    linarith
  rw [show |(10000 : ℝ)| = 10000 by rw [abs_ite, if_pos (by norm_num)]]
  exact habs

theorem big_read_pixel (row : ℕ) (hrow : row < DOTIMG_SRC_HEIGHT) :
    read_pixel (List.replicate (DOTIMG_SRC_HEIGHT * 464167) DARK) 464167 0 row false =
      some 50 := by
  rw [read_pixel, List.getElem?_replicate, if_pos ?_, Option.map_some']
  · norm_num [convertPixel, DARK]
  · simp only [DOTIMG_SRC_HEIGHT, DOTIMG_NUMSTRIPS, DOTIMG_STRIPHEIGHT,
      DOTIMG_HPIXELSPAN] at hrow ⊢
    omega

theorem big_stripTot :
    stripTot (List.replicate (DOTIMG_SRC_HEIGHT * 464167) DARK) 464167 false 0 0
      [0, 1, 2, 3, 4, 5, 6, 7, 8, 9, 10] = some 0 := by
  rw [stripTot, show DOTIMG_STRIPHEIGHT * 0 + 0 = 0 from rfl,
    big_read_pixel 0 (by norm_num)]
  rw [stripTot, show DOTIMG_STRIPHEIGHT * 0 + 1 = 1 from rfl,
    big_read_pixel 1 (by norm_num)]
  rw [stripTot, show DOTIMG_STRIPHEIGHT * 0 + 2 = 2 from rfl,
    big_read_pixel 2 (by norm_num)]
  rw [stripTot, show DOTIMG_STRIPHEIGHT * 0 + 3 = 3 from rfl,
    big_read_pixel 3 (by norm_num)]
  rw [stripTot, show DOTIMG_STRIPHEIGHT * 0 + 4 = 4 from rfl,
    big_read_pixel 4 (by norm_num)]
  rw [stripTot, show DOTIMG_STRIPHEIGHT * 0 + 5 = 5 from rfl,
    big_read_pixel 5 (by norm_num)]
  rw [stripTot, show DOTIMG_STRIPHEIGHT * 0 + 6 = 6 from rfl,
    big_read_pixel 6 (by norm_num)]
  rw [stripTot, show DOTIMG_STRIPHEIGHT * 0 + 7 = 7 from rfl,
    big_read_pixel 7 (by norm_num)]
  rw [stripTot, show DOTIMG_STRIPHEIGHT * 0 + 8 = 8 from rfl,
    big_read_pixel 8 (by norm_num)]
  rw [stripTot, show DOTIMG_STRIPHEIGHT * 0 + 9 = 9 from rfl,
    big_read_pixel 9 (by norm_num)]
  rw [stripTot, show DOTIMG_STRIPHEIGHT * 0 + 10 = 10 from rfl,
    big_read_pixel 10 (by norm_num)]
  rw [stripTot]
  norm_num

theorem big_dotSample :
    dotSample dotBigBuf 464167 false (464167 / 557) 0 0 =
      some (some (5570000 / 464167, 0)) := by
  have hrows : List.range DOTIMG_STRIPHEIGHT = [0, 1, 2, 3, 4, 5, 6, 7, 8, 9, 10] := rfl
  simp only [dotSample, big_bestOffset, hrows, dotBigBuf]
  rw [if_neg (by
    rw [abs_ite, if_pos (by norm_num)]
    norm_num [DOTIMG_HCENTER, DOTIMG_HPIXELSPAN])]
  rw [big_stripTot, Option.map_some']
  rw [if_neg (by norm_num)]
  norm_num

theorem big_notin :
    (10000 : ℝ) ∉ (dotCenters (DOTIMG_HCENTER + 0)).map
      (fun k => ((0 : ℕ) : ℝ) - zeroPoint (464167 / 557) 464167 k) := by
  rw [show DOTIMG_HCENTER + 0 = 12 from rfl]
  intro hmem
  obtain ⟨k, hk, he⟩ := List.mem_map.mp hmem
  have h12 := (mem_dotCenters 12 k hk).1
  have hzp := zeroPoint_big_ge k h12
  have he2 : ((0 : ℕ) : ℝ) - zeroPoint (464167 / 557) 464167 k = 10000 := he
  have h0 : ((0 : ℕ) : ℝ) - zeroPoint (464167 / 557) 464167 k ≤ -10000 := by
    push_cast
    linarith
  linarith

theorem big_all_isSome (sf : ℝ) :
    ∀ p ∈ dotPairs 464167, (dotSample dotBigBuf 464167 false sf p.1 p.2).isSome := by
  intro p hp
  obtain ⟨h1, h2⟩ := (mem_dotPairs _ p).mp hp
  apply dotSample_isSome
  intro row hrow
  have hr : row < DOTIMG_STRIPHEIGHT := List.mem_range.mp hrow
  rw [dotBigBuf_length]
  simp only [DOTIMG_STRIPHEIGHT, DOTIMG_SRC_HEIGHT, DOTIMG_NUMSTRIPS, DOTIMG_HPIXELSPAN]
    at h1 hr ⊢
  omega

theorem big_pairs_head : ∃ t, dotPairs 464167 = (0, 0) :: t := by
  rw [dotPairs]
  have h25 : List.range DOTIMG_NUMSTRIPS =
      [0, 1, 2, 3, 4, 5, 6, 7, 8, 9, 10, 11, 12, 13, 14, 15, 16, 17, 18, 19, 20,
       21, 22, 23, 24] := rfl
  have hw : List.range 464167 = 0 :: (List.range 464166).map Nat.succ := by
    rw [show (464167 : ℕ) = 464166 + 1 from rfl, List.range_succ_eq_map]
  rw [h25, List.flatMap_cons, hw, List.map_cons, List.cons_append]
  exact ⟨_, rfl⟩

theorem filterMap_head {α β : Type} (f : α → Option β) (a : α) (l : List α) (b : β)
    (h : f a = some b) : (List.filterMap f (a :: l)).head? = some b := by
  rw [List.filterMap_cons, h]
  rfl

theorem big_run :
    (rs_analyze_dot dotBigBuf 464167 275 false).map (fun r => r.2.head?) =
      some (some (5570000 / 464167, 0)) := by
  have hcast : ((464167 : ℕ) : ℝ) / ((DOTIMG_SRC_WIDTH : ℕ) : ℝ) = 464167 / 557 := by
    norm_num [DOTIMG_SRC_WIDTH]
  obtain ⟨l, hl⟩ := Option.isSome_iff_exists.mp
    (dotLoop_isSome dotBigBuf 464167 false (((464167 : ℕ) : ℝ) / ((DOTIMG_SRC_WIDTH : ℕ) : ℝ))
      (dotPairs 464167) (big_all_isSome _))
  have hchar := dotLoop_some dotBigBuf 464167 false _ (dotPairs 464167) l hl
  obtain ⟨t, hpairs⟩ := big_pairs_head
  have hjoin : ((dotSample dotBigBuf 464167 false
      (((464167 : ℕ) : ℝ) / ((DOTIMG_SRC_WIDTH : ℕ) : ℝ)) 0 0).join :
        Option (ℝ × ℝ)) = some (5570000 / 464167, 0) := by
    rw [hcast, big_dotSample]
    rfl
  have hhead : l.head? = some (5570000 / 464167, 0) := by
    rw [hchar, hpairs]
    exact filterMap_head _ _ _ _ hjoin
  simp only [rs_analyze_dot, hl, Option.map_some']
  rw [← hhead]

theorem big_run_eq :
    ∃ l, rs_analyze_dot dotBigBuf 464167 275 false =
      some (((464167 : ℕ) : ℝ) / ((DOTIMG_SRC_WIDTH : ℕ) : ℝ), l) ∧
      l.head? = some (5570000 / 464167, 0) := by
  have hcast : ((464167 : ℕ) : ℝ) / ((DOTIMG_SRC_WIDTH : ℕ) : ℝ) = 464167 / 557 := by
    norm_num [DOTIMG_SRC_WIDTH]
  obtain ⟨l, hl⟩ := Option.isSome_iff_exists.mp
    (dotLoop_isSome dotBigBuf 464167 false
      (((464167 : ℕ) : ℝ) / ((DOTIMG_SRC_WIDTH : ℕ) : ℝ))
      (dotPairs 464167) (big_all_isSome _))
  have hchar := dotLoop_some dotBigBuf 464167 false _ (dotPairs 464167) l hl
  obtain ⟨t, hpairs⟩ := big_pairs_head
  have hjoin : ((dotSample dotBigBuf 464167 false
      (((464167 : ℕ) : ℝ) / ((DOTIMG_SRC_WIDTH : ℕ) : ℝ)) 0 0).join :
        Option (ℝ × ℝ)) = some (5570000 / 464167, 0) := by
    rw [hcast, big_dotSample]
    rfl
  have hhead : l.head? = some (5570000 / 464167, 0) := by
    rw [hchar, hpairs]
    exact filterMap_head _ _ _ _ hjoin
  refine ⟨l, ?_, hhead⟩
  simp only [rs_analyze_dot, hl, Option.map_some']

/-- C3 (amended): every sample emitted by `rs_analyze_dot` comes from a
`(strip, dstpos)` iteration; its pre-rescale weight is always the sum over the
strip's `STRIP_HEIGHT` rows of `(sampled value − 50)`, divided by 200; and
provided at least one candidate's `|dstpos − zp|` is below the sentinel
initial offset 10000, the pre-rescale offset equals `dstpos − zp` for a
candidate `k` (among `H_CENTER+strip, +H_PIXEL_SPAN, …`, all strictly below
`SRC_WIDTH − H_CENTER`) whose zero point minimizes `|dstpos − zp|`. -/
theorem dot_pre_offset_weight_amended :
    (∀ (buf : List ℕ) (w h : ℕ) (srgb : Bool) (sf : ℝ) (samples : List (ℝ × ℝ)),
      rs_analyze_dot buf w h srgb = some (sf, samples) →
      ∀ s ∈ samples, ∃ strip dstpos : ℕ, strip < DOTIMG_NUMSTRIPS ∧ dstpos < w ∧
        dotSample buf w srgb sf strip dstpos = some (some s)) ∧
    (∀ (buf : List ℕ) (w : ℕ) (srgb : Bool) (sf : ℝ) (strip dstpos : ℕ) (s : ℝ × ℝ),
      dotSample buf w srgb sf strip dstpos = some (some s) →
      s = (if sf < 1 then
            (bestOffset sf w dstpos strip, dotWeightAt buf w srgb strip dstpos / sf)
           else
            (bestOffset sf w dstpos strip / sf, dotWeightAt buf w srgb strip dstpos)) ∧
      ((∃ k ∈ dotCenters (DOTIMG_HCENTER + strip),
          |(dstpos : ℝ) - zeroPoint sf w k| < 10000) →
        ∃ k ∈ dotCenters (DOTIMG_HCENTER + strip),
          bestOffset sf w dstpos strip = (dstpos : ℝ) - zeroPoint sf w k ∧
          ∀ k2 ∈ dotCenters (DOTIMG_HCENTER + strip),
            |(dstpos : ℝ) - zeroPoint sf w k| ≤ |(dstpos : ℝ) - zeroPoint sf w k2|)) := by
  constructor
  · exact fun buf w h srgb sf samples hd => dot_sample_of_mem buf w h srgb sf samples hd
  · intro buf w srgb sf strip dstpos s hemit
    refine ⟨(dotSample_emit buf w srgb sf strip dstpos s hemit).2, ?_⟩
    rintro ⟨k0, hk0, hk0lt⟩
    obtain ⟨hcase, hall⟩ := bestOffset_spec sf w dstpos strip
    rcases hcase with hc | ⟨k, hk, hc⟩
    · exfalso
      have hle := hall k0 hk0
      rw [hc, show |(10000 : ℝ)| = 10000 by rw [abs_ite, if_pos (by norm_num)]] at hle
      linarith
    · refine ⟨k, hk, hc, fun k2 hk2 => ?_⟩
      rw [← hc]
      exact hall k2 hk2

/-- C3 counterexample: at destination width 464167 (`scale_factor = 464167/557`),
destination column 0 of strip 0 lies at least 10000 columns away from every
candidate zero point, so the code's sentinel initial offset 10000 survives the
scan; the skip test fails because `scale_factor·H_CENTER = 5570004/557 > 10000`,
and `rs_analyze_dot` emits as its first sample a point whose pre-rescale offset
is the sentinel 10000 — not `dstpos − zp` for any candidate `k`. -/
theorem dot_pre_offset_sentinel_cex :
    bestOffset (464167 / 557) 464167 0 0 = 10000 ∧
    dotSample dotBigBuf 464167 false (464167 / 557) 0 0 =
      some (some (5570000 / 464167, 0)) ∧
    ((10000 : ℝ) ∉ (dotCenters (DOTIMG_HCENTER + 0)).map
      (fun k => ((0 : ℕ) : ℝ) - zeroPoint (464167 / 557) 464167 k)) ∧
    (rs_analyze_dot dotBigBuf 464167 275 false).map (fun r => r.2.head?) =
      some (some (5570000 / 464167, 0)) :=
  ⟨big_bestOffset, big_dotSample, big_notin, big_run⟩

/-- C3 witness: on a 1-wide all-dark image, `dotSample` at strip 0, column 0
emits `(-9/557, 0)`; candidate 287 beats the sentinel, the pre-rescale offset
`-9/557` is `0 − zp 287`, and 287 minimizes `|0 − zp|`; and on the 464167-wide
run the first emitted analyzer sample comes from a `dotSample` iteration. -/
theorem dot_pre_offset_weight_amended_witness :
    dotSample (List.replicate DOTIMG_SRC_HEIGHT DARK) 1 false (1 / 557) 0 0 =
      some (some (-9 / 557, 0)) ∧
    (∃ k ∈ dotCenters (DOTIMG_HCENTER + 0),
      |((0 : ℕ) : ℝ) - zeroPoint (1 / 557) 1 k| < 10000) ∧
    ((-9 / 557 : ℝ), (0 : ℝ)) = (if (1 / 557 : ℝ) < 1 then
        (bestOffset (1 / 557) 1 0 0,
          dotWeightAt (List.replicate DOTIMG_SRC_HEIGHT DARK) 1 false 0 0 / (1 / 557))
      else
        (bestOffset (1 / 557) 1 0 0 / (1 / 557),
          dotWeightAt (List.replicate DOTIMG_SRC_HEIGHT DARK) 1 false 0 0)) ∧
    (∃ k ∈ dotCenters (DOTIMG_HCENTER + 0),
      bestOffset (1 / 557) 1 0 0 = ((0 : ℕ) : ℝ) - zeroPoint (1 / 557) 1 k ∧
      ∀ k2 ∈ dotCenters (DOTIMG_HCENTER + 0),
        |((0 : ℕ) : ℝ) - zeroPoint (1 / 557) 1 k| ≤
          |((0 : ℕ) : ℝ) - zeroPoint (1 / 557) 1 k2|) ∧
    (∃ strip dstpos : ℕ, strip < DOTIMG_NUMSTRIPS ∧ dstpos < 464167 ∧
      dotSample dotBigBuf 464167 false
        (((464167 : ℕ) : ℝ) / ((DOTIMG_SRC_WIDTH : ℕ) : ℝ)) strip dstpos =
          some (some (5570000 / 464167, 0))) := by
  have hsent : ∃ k ∈ dotCenters (DOTIMG_HCENTER + 0),
      |((0 : ℕ) : ℝ) - zeroPoint (1 / 557) 1 k| < 10000 := by
    refine ⟨287, ?_, ?_⟩
    · rw [show DOTIMG_HCENTER + 0 = 12 from rfl, dotCenters_12]
      decide
    · norm_num [zeroPoint, abs_ite, DOTIMG_SRC_WIDTH]
  refine ⟨dot1_sample_eq, hsent, ?_, ?_, ?_⟩
  · exact (dot_pre_offset_weight_amended.2 _ 1 false (1 / 557) 0 0 _ dot1_sample_eq).1
  · exact (dot_pre_offset_weight_amended.2 _ 1 false (1 / 557) 0 0 _ dot1_sample_eq).2 hsent
  · obtain ⟨l, he, hh⟩ := big_run_eq
    have hmem : ((5570000 / 464167 : ℝ), (0 : ℝ)) ∈ l := by
      cases l with
      | nil => exact Option.noConfusion hh
      | cons a t =>
        have ha : a = (5570000 / 464167, 0) := by
          rw [List.head?_cons] at hh
          exact Option.some_inj.mp hh
        rw [← ha]
        exact List.mem_cons_self a t
    exact dot_pre_offset_weight_amended.1 dotBigBuf 464167 275 false _ l he _ hmem

theorem big_head_mem :
    ∃ l, rs_analyze_dot dotBigBuf 464167 275 false =
      some (((464167 : ℕ) : ℝ) / ((DOTIMG_SRC_WIDTH : ℕ) : ℝ), l) ∧
      ((5570000 / 464167 : ℝ), (0 : ℝ)) ∈ l := by
  obtain ⟨l, he, hh⟩ := big_run_eq
  refine ⟨l, he, ?_⟩
  cases l with
  | nil => exact Option.noConfusion hh
  | cons a t =>
    have ha : a = (5570000 / 464167, 0) := by
      rw [List.head?_cons] at hh
      exact Option.some_inj.mp hh
    rw [← ha]
    exact List.mem_cons_self a t

/-- C1 witness: the degenerate 0-wide dot analysis returns
`scale_factor = 0/557 = 0` with no samples; the 1×1 line analysis returns
`scale_factor = 1/15` with the single sample `(0, 15)`, whose weight `1` was
divided by the scale factor while the offset was left unchanged; and the
464167-wide dot analysis (`scale_factor > 1`) emits a sample whose offset was
divided by the scale factor while the weight was left unchanged. -/
theorem rescale_branch_spec_witness :
    rs_analyze_dot (List.replicate DOTIMG_SRC_HEIGHT DARK) 0 DOTIMG_SRC_HEIGHT false =
      some (0, []) ∧
    rs_analyze_line [BRIGHT] 1 1 false = some (1 / 15, [((0 : ℝ), (15 : ℝ))], 15) ∧
    (0 : ℝ) = ((0 : ℕ) : ℝ) / (DOTIMG_SRC_WIDTH : ℝ) ∧
    ([((0 : ℝ), (15 : ℝ))] = (List.range 1).map fun i =>
      if (1 / 15 : ℝ) < 1 then
        (lineOffsetAt 1 i, lineWeightAt [BRIGHT] 1 1 false i / (1 / 15))
      else (lineOffsetAt 1 i / (1 / 15), lineWeightAt [BRIGHT] 1 1 false i)) ∧
    (∃ strip dstpos : ℕ, strip < DOTIMG_NUMSTRIPS ∧ dstpos < 464167 ∧
      ((5570000 / 464167 : ℝ), (0 : ℝ)) =
        (if ((464167 : ℕ) : ℝ) / ((DOTIMG_SRC_WIDTH : ℕ) : ℝ) < 1 then
          (bestOffset (((464167 : ℕ) : ℝ) / ((DOTIMG_SRC_WIDTH : ℕ) : ℝ)) 464167 dstpos strip,
            dotWeightAt dotBigBuf 464167 false strip dstpos /
              (((464167 : ℕ) : ℝ) / ((DOTIMG_SRC_WIDTH : ℕ) : ℝ)))
         else
          (bestOffset (((464167 : ℕ) : ℝ) / ((DOTIMG_SRC_WIDTH : ℕ) : ℝ)) 464167 dstpos strip /
              (((464167 : ℕ) : ℝ) / ((DOTIMG_SRC_WIDTH : ℕ) : ℝ)),
            dotWeightAt dotBigBuf 464167 false strip dstpos))) := by
  refine ⟨dot0_eq, line1_eq, ?_, ?_, ?_⟩
  · exact (rescale_branch_spec.1 _ 0 _ false 0 [] dot0_eq).1
  · exact (rescale_branch_spec.2 _ 1 1 false (1 / 15) 15 _ line1_eq).2
  · obtain ⟨l, he, hmem⟩ := big_head_mem
    exact (rescale_branch_spec.1 dotBigBuf 464167 275 false _ l he).2 _ hmem

/-- C2 witness: the 16×1 all-bright line analysis has `scale_factor = 16/15 > 1`
and its first sample divides the offset by the scale factor; the 1×1 line
analysis has `scale_factor = 1/15 < 1` and divides the weight instead; and the
464167-wide dot analysis (`scale_factor > 1`) emits a sample obeying the same
direction. -/
theorem rescale_direction_amended_witness :
    rs_analyze_line (List.replicate 16 BRIGHT) 16 1 false =
      some (16 / 15, line16samples, 15) ∧
    (1 ≤ (16 / 15 : ℝ)) ∧
    line16samples[0]? =
      some (lineOffsetAt 16 0 / (16 / 15),
        lineWeightAt (List.replicate 16 BRIGHT) 16 1 false 0) ∧
    rs_analyze_line [BRIGHT] 1 1 false = some (1 / 15, [((0 : ℝ), (15 : ℝ))], 15) ∧
    ((1 / 15 : ℝ) < 1) ∧
    (([((0 : ℝ), (15 : ℝ))] : List (ℝ × ℝ))[0]? =
      some (lineOffsetAt 1 0, lineWeightAt [BRIGHT] 1 1 false 0 / (1 / 15))) ∧
    (∃ strip dstpos : ℕ, strip < DOTIMG_NUMSTRIPS ∧ dstpos < 464167 ∧
      (1 ≤ ((464167 : ℕ) : ℝ) / ((DOTIMG_SRC_WIDTH : ℕ) : ℝ) →
        ((5570000 / 464167 : ℝ), (0 : ℝ)) =
          (bestOffset (((464167 : ℕ) : ℝ) / ((DOTIMG_SRC_WIDTH : ℕ) : ℝ)) 464167 dstpos strip /
              (((464167 : ℕ) : ℝ) / ((DOTIMG_SRC_WIDTH : ℕ) : ℝ)),
            dotWeightAt dotBigBuf 464167 false strip dstpos)) ∧
      (((464167 : ℕ) : ℝ) / ((DOTIMG_SRC_WIDTH : ℕ) : ℝ) < 1 →
        ((5570000 / 464167 : ℝ), (0 : ℝ)) =
          (bestOffset (((464167 : ℕ) : ℝ) / ((DOTIMG_SRC_WIDTH : ℕ) : ℝ)) 464167 dstpos strip,
            dotWeightAt dotBigBuf 464167 false strip dstpos /
              (((464167 : ℕ) : ℝ) / ((DOTIMG_SRC_WIDTH : ℕ) : ℝ))))) := by
  refine ⟨line16_eq, by norm_num, ?_, line1_eq, by norm_num, ?_, ?_⟩
  · exact (rescale_direction_amended.1 _ 16 1 false (16 / 15) 15 line16samples line16_eq 0
      (by norm_num)).1 (by norm_num)
  · exact (rescale_direction_amended.1 _ 1 1 false (1 / 15) 15 _ line1_eq 0
      (by norm_num)).2 (by norm_num)
  · obtain ⟨l, he, hmem⟩ := big_head_mem
    exact rescale_direction_amended.2 dotBigBuf 464167 275 false _ l he _ hmem

/-- C4 witness: the degenerate 0-wide dot analysis emits the empty sample list,
the skip-filtered iteration over the empty pair list, of length at most
`NUM_STRIPS × 0`; and the 464167-wide run's sample list is the skip-filtered
iteration over its pair list and respects the `NUM_STRIPS × w` bound. -/
theorem dot_skip_count_order_witness :
    rs_analyze_dot (List.replicate DOTIMG_SRC_HEIGHT DARK) 0 DOTIMG_SRC_HEIGHT false =
      some (0, []) ∧
    ([] : List (ℝ × ℝ)) = (dotPairs 0).filterMap
      (fun p => (dotSample (List.replicate DOTIMG_SRC_HEIGHT DARK) 0 false 0 p.1 p.2).join) ∧
    ([] : List (ℝ × ℝ)).length ≤ DOTIMG_NUMSTRIPS * 0 ∧
    (∃ l, rs_analyze_dot dotBigBuf 464167 275 false =
        some (((464167 : ℕ) : ℝ) / ((DOTIMG_SRC_WIDTH : ℕ) : ℝ), l) ∧
      l.length ≤ DOTIMG_NUMSTRIPS * 464167 ∧
      l = (dotPairs 464167).filterMap (fun p =>
        (dotSample dotBigBuf 464167 false
          (((464167 : ℕ) : ℝ) / ((DOTIMG_SRC_WIDTH : ℕ) : ℝ)) p.1 p.2).join)) := by
  have h := dot_skip_count_order (List.replicate DOTIMG_SRC_HEIGHT DARK) 0 DOTIMG_SRC_HEIGHT
    false 0 [] dot0_eq
  refine ⟨dot0_eq, h.1, h.2.1, ?_⟩
  obtain ⟨l, he, _⟩ := big_run_eq
  have h2 := dot_skip_count_order dotBigBuf 464167 275 false _ l he
  exact ⟨l, he, h2.2.1, h2.1⟩

theorem zeroPoint_big_min (k : ℕ) (hk : 12 ≤ k) :
    (5801809 / 557 : ℝ) ≤ zeroPoint (464167 / 557) 464167 k := by
  rw [zeroPoint]
  have hk2 : (12 : ℝ) ≤ (k : ℝ) := by exact_mod_cast hk
  have hmul : (464167 / 557 : ℝ) * ((12 : ℝ) + 0.5 - (DOTIMG_SRC_WIDTH : ℝ) / 2) ≤
      (464167 / 557 : ℝ) * ((k : ℝ) + 0.5 - (DOTIMG_SRC_WIDTH : ℝ) / 2) :=
    mul_le_mul_of_nonneg_left (by linarith) (by norm_num)
  have hnum : (464167 / 557 : ℝ) * ((12 : ℝ) + 0.5 - (DOTIMG_SRC_WIDTH : ℝ) / 2) +
      ((464167 : ℕ) : ℝ) / 2 - 0.5 = 5801809 / 557 := by
    norm_num [DOTIMG_SRC_WIDTH]
  linarith

/-- C4 counterexample: at destination width 464167, strip 0, destination
column 0, every candidate zero point is `5801809/557 ≈ 10416` or more columns
away, which exceeds `scale_factor · H_CENTER = 5570004/557 ≈ 10000.007` — so
the claim predicts that this column is skipped.  But the scan's tracked offset
is the sentinel `10000`, the code's skip test `10000 > 5570004/557` fails, and
`rs_analyze_dot` emits a sample for this column (its first emitted sample). -/
theorem dot_skip_candidate_cex :
    (∀ k ∈ dotCenters (DOTIMG_HCENTER + 0),
      (464167 / 557 : ℝ) * (DOTIMG_HCENTER : ℝ) <
        |((0 : ℕ) : ℝ) - zeroPoint (464167 / 557) 464167 k|) ∧
    dotSample dotBigBuf 464167 false (464167 / 557) 0 0 =
      some (some (5570000 / 464167, 0)) ∧
    (rs_analyze_dot dotBigBuf 464167 275 false).map (fun r => r.2.head?) =
      some (some (5570000 / 464167, 0)) := by
  refine ⟨?_, big_dotSample, big_run⟩
  intro k hk
  have h12 : 12 ≤ k := (mem_dotCenters _ k hk).1
  have hzp := zeroPoint_big_min k h12
  have habs : |((0 : ℕ) : ℝ) - zeroPoint (464167 / 557) 464167 k| =
      zeroPoint (464167 / 557) 464167 k := by
    rw [abs_ite, if_neg (by push_cast; linarith)]
    push_cast
    ring
  rw [habs]
  have hc : ((DOTIMG_HCENTER : ℕ) : ℝ) = 12 := by
    norm_num [DOTIMG_HCENTER, DOTIMG_HPIXELSPAN]
  rw [hc]
  have hval : (464167 / 557 : ℝ) * 12 = 5570004 / 557 := by norm_num
  have hlt : (5570004 / 557 : ℝ) < 5801809 / 557 := by norm_num
  linarith
